import Mathlib

/-!
Shallow embedding of `src/crates/clawsec_core/src/distributed_consensus.rs`.

The Rust module implements a sketch of a Raft-style consensus engine.
Ignoring the concurrency wrappers (`Arc<RwLock<_>>`, `AtomicU64`) — every
public operation takes all its locks up front and runs sequentially — each
operation is a pure function from the engine state (plus the RPC arguments)
to a new engine state and a return value.  `u64` fields are modelled as
`Nat`: the code performs no arithmetic on them that could wrap (the only
writes are constants `0` and `log.len()`), so no `% 2^64` reduction is
needed.  `Instant` (wall-clock) values and the random election timeout are
never read by any operation; the clock is modelled as a constant `0` and
the random draw as an explicit parameter of the constructor.
-/

/-- `NodeState` from the source: role of a node. -/
inductive NodeState where
  | Follower
  | Candidate
  | Leader
deriving DecidableEq, Repr

/-- `LogEntry` from the source: `{term: u64, command: Vec<u8>, timestamp: u64}`. -/
structure LogEntry where
  term : Nat
  command : List Nat
  timestamp : Nat
deriving DecidableEq, Repr

/-- `PeerNode` from the source.  `last_heartbeat: Instant` is a wall-clock
value never read by any operation; it is modelled as a `Nat` tick. -/
structure PeerNode where
  id : String
  address : String
  last_heartbeat : Nat
  next_index : Nat
  match_index : Nat
deriving DecidableEq, Repr

/-- `ConsensusEngine` from the source.  The `HashMap<String, PeerNode>` is
modelled as an association list (later inserts override earlier ones, as in
`HashMap::insert`). -/
structure ConsensusEngine where
  node_id : String
  current_term : Nat
  voted_for : Option String
  log : List LogEntry
  commit_index : Nat
  last_applied : Nat
  state : NodeState
  peers : List (String × PeerNode)
  election_timeout : Nat
deriving DecidableEq, Repr

namespace ConsensusEngine

/-- `ConsensusEngine::new`.  The source draws `rand::random::<u64>()` for
the election timeout; that draw is passed in as `rand_draw`.  Each peer is
built with `last_heartbeat: Instant::now()` (modelled as tick `0`),
`next_index: 0`, `match_index: 0`.  `HashMap` insertion order is modelled
by keeping the association list in insertion order. -/
def new (node_id : String) (peers_list : List (String × String)) (rand_draw : Nat) :
    ConsensusEngine :=
  { node_id := node_id
    current_term := 0
    voted_for := none
    log := []
    commit_index := 0
    last_applied := 0
    state := NodeState.Follower
    peers := peers_list.map fun pa =>
      (pa.1, { id := pa.1, address := pa.2, last_heartbeat := 0,
               next_index := 0, match_index := 0 })
    election_timeout := 150 + rand_draw % 150 }

/-- `ConsensusEngine::start`: spawns a background thread whose loop body is
empty (`// Main event loop would go here`); it never touches the engine
state, so it is the identity on the state. -/
def start (e : ConsensusEngine) : ConsensusEngine := e

/-- The block `if term > *current_term { *current_term = term;
*state = Follower; *voted_for = None }` that appears verbatim in both
`append_entries` and `request_vote`. -/
def adoptTerm (e : ConsensusEngine) (term : Nat) : ConsensusEngine :=
  if e.current_term < term then
    { e with current_term := term, state := NodeState.Follower, voted_for := none }
  else e

/-- `ConsensusEngine::append_entries(term, leader_id, entries) -> bool`,
line for line:
1. `if term < *current_term { return false }`
2. `if term > *current_term { adopt term; state = Follower; voted_for = None }`
3. `log.extend(entries)`
4. `commit_index.store(log.len())`
5. `return true`.
`leader_id` is accepted and ignored, as in the source. -/
def append_entries (e : ConsensusEngine) (term : Nat) (leader_id : String)
    (entries : List LogEntry) : ConsensusEngine × Bool :=
  if term < e.current_term then
    (e, false)
  else
    let e1 := e.adoptTerm term
    let newLog := e1.log ++ entries
    ({ e1 with log := newLog, commit_index := newLog.length }, true)

/-- `ConsensusEngine::request_vote(term, candidate_id, last_log_idx) -> bool`,
line for line:
1. `if term > *current_term { adopt term; state = Follower; voted_for = None }`
2. `if term < *current_term { return false }`
3. `if voted_for.is_none() || voted_for == Some(candidate_id) { voted_for = Some(candidate_id); return true }`
4. `return false`.
`last_log_idx` is accepted and ignored, as in the source. -/
def request_vote (e : ConsensusEngine) (term : Nat) (candidate_id : String)
    (last_log_idx : Nat) : ConsensusEngine × Bool :=
  let e1 := e.adoptTerm term
  if term < e1.current_term then
    (e1, false)
  else if e1.voted_for = none ∨ e1.voted_for = some candidate_id then
    ({ e1 with voted_for := some candidate_id }, true)
  else
    (e1, false)

/-- `ConsensusEngine::replicate_log`: reads `state` and `peers`; the loop
body over peers is a comment (`// Logic to send AppendEntries RPC to peer`).
No state is mutated, so it is the identity on the state. -/
def replicate_log (e : ConsensusEngine) : ConsensusEngine := e

/-- Debug rendering of `NodeState`, as `{:?}` prints it. -/
def NodeState.debugStr : NodeState → String
  | NodeState.Follower => "Follower"
  | NodeState.Candidate => "Candidate"
  | NodeState.Leader => "Leader"

/-- `ConsensusEngine::get_status`: reads `state`, `current_term` and the log
length and formats them; it mutates nothing. -/
def get_status (e : ConsensusEngine) : String :=
  "Node: " ++ e.node_id ++ " | State: " ++ NodeState.debugStr e.state ++
    " | Term: " ++ toString e.current_term ++ " | LogSize: " ++ toString e.log.length

end ConsensusEngine

/-- One call to a public operation of the engine, with its arguments. -/
inductive EngineOp where
  | start : EngineOp
  | appendEntries (term : Nat) (leader_id : String) (entries : List LogEntry) : EngineOp
  | requestVote (term : Nat) (candidate_id : String) (last_log_idx : Nat) : EngineOp
  | replicateLog : EngineOp
  | getStatus : EngineOp
deriving DecidableEq, Repr

/-- The state transformation performed by one public operation
(`get_status` returns a `String` and leaves the state unchanged). -/
def EngineOp.apply (op : EngineOp) (e : ConsensusEngine) : ConsensusEngine :=
  match op with
  | EngineOp.start => e.start
  | EngineOp.appendEntries t l es => (e.append_entries t l es).1
  | EngineOp.requestVote t c i => (e.request_vote t c i).1
  | EngineOp.replicateLog => e.replicate_log
  | EngineOp.getStatus => e

/-- Run a sequence of public operations from a starting state. -/
def runOps (ops : List EngineOp) (e : ConsensusEngine) : ConsensusEngine :=
  ops.foldl (fun s op => op.apply s) e

/- Concrete engine states used to evaluate the operations on the spec's
scenarios.  The constructor-argument order is that of `ConsensusEngine`:
node_id, current_term, voted_for, log, commit_index, last_applied, state,
peers, election_timeout. -/

/-- Scenario D follower: term 2, no vote cast, three-entry log whose last
entry has term 2 (so lastLogIndex = 3, lastLogTerm = 2). -/
def nodeScenarioD : ConsensusEngine :=
  ⟨"n", 2, none, [⟨1, [], 0⟩, ⟨2, [], 0⟩, ⟨2, [], 0⟩], 0, 0, NodeState.Follower, [], 0⟩

/-- A follower at term 1 whose log has a single entry (so its log holds no
entry at index 2 with any term). -/
def nodeShortLog : ConsensusEngine :=
  ⟨"n", 1, none, [⟨1, [], 0⟩], 1, 0, NodeState.Follower, [], 0⟩

/-- Scenario C follower: term 2, three-entry log whose entry at index 3 has
term 1 (terms 1, 2, 1). -/
def nodeScenarioC : ConsensusEngine :=
  ⟨"n", 2, none, [⟨1, [], 0⟩, ⟨2, [], 0⟩, ⟨1, [], 0⟩], 3, 0, NodeState.Follower, [], 0⟩

/-- A node that is Leader at term 1, having voted for itself. -/
def leaderAtTerm1 : ConsensusEngine :=
  ⟨"n", 1, some "n", [], 0, 0, NodeState.Leader, [], 0⟩

/-- A follower at term 1 with no vote cast and an empty log. -/
def nodeTerm1 : ConsensusEngine :=
  ⟨"n", 1, none, [], 0, 0, NodeState.Follower, [], 0⟩

/-- A follower at term 1 that has voted for candidate `"c"`. -/
def nodeVotedC : ConsensusEngine :=
  ⟨"n", 1, some "c", [], 0, 0, NodeState.Follower, [], 0⟩

/-- A follower at term 1 that has voted for candidate `"other"`. -/
def nodeVotedOther : ConsensusEngine :=
  ⟨"n", 1, some "other", [], 0, 0, NodeState.Follower, [], 0⟩

theorem runOps_nil (e : ConsensusEngine) : runOps [] e = e := rfl

theorem runOps_cons (op : EngineOp) (ops : List EngineOp) (e : ConsensusEngine) :
    runOps (op :: ops) e = runOps ops (op.apply e) := rfl

/- Step lemmas: the effect of a single public operation on individual fields. -/

theorem adoptTerm_current_term_le (e : ConsensusEngine) (t : Nat) :
    e.current_term ≤ (e.adoptTerm t).current_term := by
  unfold ConsensusEngine.adoptTerm
  split
  · exact Nat.le_of_lt (by assumption)
  · exact Nat.le_refl _

theorem apply_current_term_le (op : EngineOp) (e : ConsensusEngine) :
    e.current_term ≤ (op.apply e).current_term := by
  cases op with
  | start => exact Nat.le_refl _
  | replicateLog => exact Nat.le_refl _
  | getStatus => exact Nat.le_refl _
  | appendEntries t l es =>
      simp only [EngineOp.apply, ConsensusEngine.append_entries]
      split
      · exact Nat.le_refl _
      · exact adoptTerm_current_term_le e t
  | requestVote t c i =>
      simp only [EngineOp.apply, ConsensusEngine.request_vote]
      split
      · exact adoptTerm_current_term_le e t
      · split
        · exact adoptTerm_current_term_le e t
        · exact adoptTerm_current_term_le e t

theorem runOps_current_term_le (ops : List EngineOp) (e : ConsensusEngine) :
    e.current_term ≤ (runOps ops e).current_term := by
  induction ops generalizing e with
  | nil => exact Nat.le_refl _
  | cons op ops ih =>
      rw [runOps_cons]
      exact Nat.le_trans (apply_current_term_le op e) (ih (op.apply e))

theorem apply_last_applied (op : EngineOp) (e : ConsensusEngine) :
    (op.apply e).last_applied = e.last_applied := by
  cases op with
  | start => rfl
  | replicateLog => rfl
  | getStatus => rfl
  | appendEntries t l es =>
      simp only [EngineOp.apply, ConsensusEngine.append_entries, ConsensusEngine.adoptTerm]
      repeat' split
      all_goals rfl
  | requestVote t c i =>
      simp only [EngineOp.apply, ConsensusEngine.request_vote, ConsensusEngine.adoptTerm]
      repeat' split
      all_goals rfl

theorem apply_peers (op : EngineOp) (e : ConsensusEngine) :
    (op.apply e).peers = e.peers := by
  cases op with
  | start => rfl
  | replicateLog => rfl
  | getStatus => rfl
  | appendEntries t l es =>
      simp only [EngineOp.apply, ConsensusEngine.append_entries, ConsensusEngine.adoptTerm]
      repeat' split
      all_goals rfl
  | requestVote t c i =>
      simp only [EngineOp.apply, ConsensusEngine.request_vote, ConsensusEngine.adoptTerm]
      repeat' split
      all_goals rfl

theorem runOps_last_applied (ops : List EngineOp) (e : ConsensusEngine) :
    (runOps ops e).last_applied = e.last_applied := by
  induction ops generalizing e with
  | nil => rfl
  | cons op ops ih =>
      rw [runOps_cons, ih, apply_last_applied]

theorem runOps_peers (ops : List EngineOp) (e : ConsensusEngine) :
    (runOps ops e).peers = e.peers := by
  induction ops generalizing e with
  | nil => rfl
  | cons op ops ih =>
      rw [runOps_cons, ih, apply_peers]

theorem apply_voted_for_stable (op : EngineOp) (e : ConsensusEngine) (c : String)
    (hterm : (op.apply e).current_term = e.current_term)
    (hv : e.voted_for = some c) :
    (op.apply e).voted_for = some c := by
  cases op with
  | start => exact hv
  | replicateLog => exact hv
  | getStatus => exact hv
  | appendEntries t l es =>
      simp only [EngineOp.apply, ConsensusEngine.append_entries,
        ConsensusEngine.adoptTerm] at hterm ⊢
      by_cases h1 : t < e.current_term
      · simp only [if_pos h1]
        exact hv
      · by_cases h2 : e.current_term < t
        · simp only [if_neg h1, if_pos h2] at hterm
          omega
        · simp only [if_neg h1, if_neg h2]
          exact hv
  | requestVote t cid i =>
      simp only [EngineOp.apply, ConsensusEngine.request_vote,
        ConsensusEngine.adoptTerm] at hterm ⊢
      by_cases h2 : e.current_term < t
      · simp only [if_pos h2] at hterm
        simp only [lt_self_iff_false, if_neg (by simp : ¬ False)] at hterm
        · simp at hterm
          omega
      · simp only [if_neg h2] at hterm ⊢
        by_cases h3 : t < e.current_term
        · simp only [if_pos h3]
          exact hv
        · simp only [if_neg h3]
          by_cases h4 : e.voted_for = none ∨ e.voted_for = some cid
          · simp only [if_pos h4]
            rcases h4 with h4 | h4
            · rw [hv] at h4
              cases h4
            · rw [hv] at h4
              simpa using h4.symm
          · simp only [if_neg h4]
            exact hv

theorem runOps_voted_for_stable (ops : List EngineOp) (e : ConsensusEngine) (c : String)
    (hterm : (runOps ops e).current_term = e.current_term)
    (hv : e.voted_for = some c) :
    (runOps ops e).voted_for = some c := by
  induction ops generalizing e with
  | nil => exact hv
  | cons op ops ih =>
      rw [runOps_cons] at hterm ⊢
      have h1 : e.current_term ≤ (op.apply e).current_term := apply_current_term_le op e
      have h2 : (op.apply e).current_term ≤ (runOps ops (op.apply e)).current_term :=
        runOps_current_term_le ops (op.apply e)
      have heq : (op.apply e).current_term = e.current_term := by omega
      exact ih (op.apply e) (by omega) (apply_voted_for_stable op e c heq hv)

/- Claim theorems. -/

/-- C1 (code-bug evaluation): Scenario D of the spec demands that a
follower at term 2 whose log ends in `(lastLogIndex = 3, lastLogTerm = 2)`
deny the vote to a candidate at term 2 with `lastLogIndex = 1`.  The
source's `request_vote` carries no `last_log_term` parameter at all and
never consults the log: on this exact input it grants the vote
(returns `true`). -/
theorem request_vote_ignores_log_freshness :
    (nodeScenarioD.request_vote 2 "cand" 1).2 = true ∧ nodeScenarioD.log.length = 3 := by
  constructor
  · rfl
  · rfl

/-- C2 (code-bug evaluation): the source's `append_entries` carries no
`prevLogIndex`/`prevLogTerm` and performs no log-consistency check: a
follower whose log has length 1 (so it has no entry at index 2 with any
term at all) still accepts the request (returns `true`) and appends the
entries at the end of its log. -/
theorem append_entries_accepts_without_prefix_check :
    nodeShortLog.append_entries 1 "L" [⟨1, [7], 0⟩] =
      (⟨"n", 1, none, [⟨1, [], 0⟩, ⟨1, [7], 0⟩], 2, 0, NodeState.Follower, [], 0⟩, true) := by
  rfl

/-- C3 (code-bug evaluation): Scenario C of the spec: a follower whose
third entry has term 1 receives a conflicting entry for index 3 with term 2
and should truncate index 3 onward, ending with the 3-entry log
`[(1), (2), (2,[9])]`.  The source's `append_entries` never truncates: it
blindly extends, producing a 4-entry log whose third entry still has
term 1. -/
theorem append_entries_appends_without_truncation :
    ((nodeScenarioC.append_entries 2 "L" [⟨2, [9], 0⟩]).1.log =
      [⟨1, [], 0⟩, ⟨2, [], 0⟩, ⟨1, [], 0⟩, ⟨2, [9], 0⟩]) ∧
    ((nodeScenarioC.append_entries 2 "L" [⟨2, [9], 0⟩]).1.log ≠
      [⟨1, [], 0⟩, ⟨2, [], 0⟩, ⟨2, [9], 0⟩]) := by
  constructor
  · rfl
  · decide

/-- C4 (code-bug evaluation): the source's `append_entries` carries no
`leaderCommit` and unconditionally stores the new log length into
`commit_index`.  For an empty follower receiving one entry from a leader
whose commit index is 0, the claim demands
`commitIndex = min(leaderCommit, lastNewEntryIndex) = min 0 1 = 0`, but the
code sets it to 1. -/
theorem commit_index_ignores_leader_commit :
    (((ConsensusEngine.new "n" [] 0).append_entries 1 "L" [⟨1, [], 0⟩]).1.commit_index = 1) ∧
    (((ConsensusEngine.new "n" [] 0).append_entries 1 "L" [⟨1, [], 0⟩]).1.commit_index ≠
      min 0 1) := by
  constructor
  · rfl
  · decide

/-- C5: any `append_entries` or `request_vote` call whose term is strictly
greater than the local `current_term` leaves the node with `current_term`
equal to the received term and role `Follower`, whatever its prior role. -/
theorem higher_term_demotes_to_follower (e : ConsensusEngine) (term : Nat)
    (leader_id candidate_id : String) (entries : List LogEntry) (last_log_idx : Nat)
    (h : e.current_term < term) :
    ((e.append_entries term leader_id entries).1.current_term = term ∧
      (e.append_entries term leader_id entries).1.state = NodeState.Follower) ∧
    ((e.request_vote term candidate_id last_log_idx).1.current_term = term ∧
      (e.request_vote term candidate_id last_log_idx).1.state = NodeState.Follower) := by
  have h1 : ¬ term < e.current_term := by omega
  constructor
  · constructor
    · simp [ConsensusEngine.append_entries, ConsensusEngine.adoptTerm, h1, h]
    · simp [ConsensusEngine.append_entries, ConsensusEngine.adoptTerm, h1, h]
  · constructor
    · simp [ConsensusEngine.request_vote, ConsensusEngine.adoptTerm, h]
    · simp [ConsensusEngine.request_vote, ConsensusEngine.adoptTerm, h]

/-- Witness for C5 at a concrete input: a Leader at term 1 receives term 2
and is demoted by both RPCs. -/
theorem higher_term_demotes_to_follower_witness :
    leaderAtTerm1.current_term < 2 ∧
    (((leaderAtTerm1.append_entries 2 "L" []).1.current_term = 2 ∧
      (leaderAtTerm1.append_entries 2 "L" []).1.state = NodeState.Follower) ∧
     ((leaderAtTerm1.request_vote 2 "c" 0).1.current_term = 2 ∧
      (leaderAtTerm1.request_vote 2 "c" 0).1.state = NodeState.Follower)) :=
  ⟨Nat.one_lt_two,
    higher_term_demotes_to_follower leaderAtTerm1 2 "L" "c" [] 0 Nat.one_lt_two⟩

/-- C6: an `append_entries` call whose term is strictly below the local
`current_term` returns `false` and leaves the whole engine state — in
particular `current_term`, `voted_for`, the log, `commit_index` and the
role — unchanged. -/
theorem stale_term_append_entries_noop (e : ConsensusEngine) (term : Nat)
    (leader_id : String) (entries : List LogEntry) (h : term < e.current_term) :
    e.append_entries term leader_id entries = (e, false) := by
  simp [ConsensusEngine.append_entries, h]

/-- Witness for C6 at a concrete input: a follower at term 1 rejects a
term-0 request unchanged. -/
theorem stale_term_append_entries_noop_witness :
    0 < nodeTerm1.current_term ∧
    nodeTerm1.append_entries 0 "L" [⟨0, [], 0⟩] = (nodeTerm1, false) :=
  ⟨Nat.zero_lt_one,
    stale_term_append_entries_noop nodeTerm1 0 "L" [⟨0, [], 0⟩] Nat.zero_lt_one⟩

/-- C7: across any sequence of public operations during which
`current_term` does not change, a cast vote `some c` is never changed to a
different candidate nor cleared back to `none`. -/
theorem voted_for_stable_within_term (e : ConsensusEngine) (ops : List EngineOp)
    (c : String) (hterm : (runOps ops e).current_term = e.current_term)
    (hv : e.voted_for = some c) :
    (runOps ops e).voted_for = some c :=
  runOps_voted_for_stable ops e c hterm hv

/-- Witness for C7 at a concrete input: a follower at term 1 that voted for
`"c"` handles a heartbeat and a competing vote request for `"d"` at the
same term; the vote stays `"c"`. -/
theorem voted_for_stable_within_term_witness :
    (runOps [EngineOp.appendEntries 1 "l" [], EngineOp.requestVote 1 "d" 0,
      EngineOp.replicateLog] nodeVotedC).current_term = nodeVotedC.current_term ∧
    nodeVotedC.voted_for = some "c" ∧
    (runOps [EngineOp.appendEntries 1 "l" [], EngineOp.requestVote 1 "d" 0,
      EngineOp.replicateLog] nodeVotedC).voted_for = some "c" :=
  ⟨rfl, rfl,
    voted_for_stable_within_term nodeVotedC
      [EngineOp.appendEntries 1 "l" [], EngineOp.requestVote 1 "d" 0,
        EngineOp.replicateLog] "c" rfl rfl⟩

/-- C8 counterexample: in an engine freshly constructed with one peer and
an empty log, the peer's `next_index` is 0, not `log.length + 1 = 1`, and
`matchIndex ≤ nextIndex - 1` fails over the integers (`0 ≤ -1` is false):
the claimed initialization and invariant do not hold. -/
theorem peer_init_invariant_counterexample :
    ¬ (∀ pr ∈ (ConsensusEngine.new "n" [("p", "a")] 0).peers,
        pr.2.next_index = (ConsensusEngine.new "n" [("p", "a")] 0).log.length + 1 ∧
        (pr.2.match_index : Int) ≤ (pr.2.next_index : Int) - 1) := by
  intro h
  have h1 := h ("p", ⟨"p", "a", 0, 0, 0⟩) (by simp [ConsensusEngine.new])
  simp [ConsensusEngine.new] at h1

/-- C8 (amended): the constructor initializes every peer's `next_index`
and `match_index` to 0, no public operation ever modifies the peer map, and
therefore `match_index ≤ next_index` (without the `- 1`) holds for every
peer record at all times. -/
theorem peer_indices_zero_invariant (node_id : String)
    (peers_list : List (String × String)) (rand_draw : Nat) (ops : List EngineOp)
    (pr : String × PeerNode)
    (hmem : pr ∈ (runOps ops (ConsensusEngine.new node_id peers_list rand_draw)).peers) :
    pr.2.next_index = 0 ∧ pr.2.match_index = 0 ∧ pr.2.match_index ≤ pr.2.next_index := by
  rw [runOps_peers] at hmem
  simp only [ConsensusEngine.new] at hmem
  rcases List.mem_map.mp hmem with ⟨pa, hpa, hf⟩
  rw [← hf]
  exact ⟨rfl, rfl, Nat.le_refl 0⟩

/-- Witness for C8 (amended) at a concrete input: one peer, no operations. -/
theorem peer_indices_zero_invariant_witness :
    (("p", (⟨"p", "a", 0, 0, 0⟩ : PeerNode)) ∈
      (runOps [] (ConsensusEngine.new "n" [("p", "a")] 0)).peers) ∧
    (("p", (⟨"p", "a", 0, 0, 0⟩ : PeerNode)).2.next_index = 0 ∧
     ("p", (⟨"p", "a", 0, 0, 0⟩ : PeerNode)).2.match_index = 0 ∧
     ("p", (⟨"p", "a", 0, 0, 0⟩ : PeerNode)).2.match_index ≤
       ("p", (⟨"p", "a", 0, 0, 0⟩ : PeerNode)).2.next_index) :=
  ⟨by simp [runOps, ConsensusEngine.new],
    peer_indices_zero_invariant "n" [("p", "a")] 0 []
      ("p", (⟨"p", "a", 0, 0, 0⟩ : PeerNode))
      (by simp [runOps, ConsensusEngine.new])⟩

/-- C9: a `request_vote` call carrying a term strictly greater than the
local `current_term` always returns `true`, whatever vote was previously
cast and whatever the candidate's log position: adopting the higher term
clears `voted_for` before the grant check runs. -/
theorem higher_term_vote_always_granted (e : ConsensusEngine) (term : Nat)
    (candidate_id : String) (last_log_idx : Nat) (h : e.current_term < term) :
    (e.request_vote term candidate_id last_log_idx).2 = true := by
  simp [ConsensusEngine.request_vote, ConsensusEngine.adoptTerm, h]

/-- Witness for C9 at a concrete input: a node that already voted for
`"other"` at term 1 still grants `"cand"` a vote at term 2. -/
theorem higher_term_vote_always_granted_witness :
    nodeVotedOther.current_term < 2 ∧ nodeVotedOther.voted_for = some "other" ∧
    (nodeVotedOther.request_vote 2 "cand" 0).2 = true :=
  ⟨Nat.one_lt_two, rfl,
    higher_term_vote_always_granted nodeVotedOther 2 "cand" 0 Nat.one_lt_two⟩

/-- C10: `last_applied` is 0 after construction and no sequence of public
operations (`start`, `append_entries`, `request_vote`, `replicate_log`,
`get_status`) ever modifies it. -/
theorem last_applied_always_zero (node_id : String)
    (peers_list : List (String × String)) (rand_draw : Nat) (ops : List EngineOp) :
    (runOps ops (ConsensusEngine.new node_id peers_list rand_draw)).last_applied = 0 := by
  rw [runOps_last_applied]
  rfl
